import Mathlib

/-!
Verification of the referral/coupon bot core (files `app.py` and `bot.py`).

The relational state (tables `users`, `coupons`, `device_verifications`,
`redeems`, plus the merged `redeem_rules` setting) is embedded as a `DB`
structure; each SQL statement of the three core operations and of the
web-verification endpoint is translated into a pure state-passing function.
`select ... where key=x ... fetchone` becomes `List.find?`,
`update ... where p` becomes a conditional map (`updWhere`), and
`insert` becomes list append.  Timestamps produced by SQL `now()` are
passed explicitly as a `now : Nat` argument.
-/

/-- A row of the `users` table (columns read or written by the code:
`tg_id` primary key, `username`, `first_name`, `last_seen`, `points`,
`referrals`, `verified`, `referral_awarded`, `referred_by`, `verify_token`,
`state`, `state_data`).  Defaults are the column defaults a fresh
`insert into users(tg_id, username, first_name, last_seen)` row receives. -/
structure User where
  tg_id : Int := 0
  username : Option String := none
  first_name : Option String := none
  last_seen : Nat := 0
  points : Int := 0
  referrals : Int := 0
  verified : Bool := false
  referral_awarded : Bool := false
  referred_by : Option Int := none
  verify_token : Option String := none
  state : Option String := none
  state_data : Option String := none
deriving DecidableEq

/-- A row of the `coupons` table: serial `id`, `coupon_type`, `code`,
`is_used`, `used_by`, `used_at`. -/
structure Coupon where
  id : Nat := 0
  coupon_type : String := ""
  code : String := ""
  is_used : Bool := false
  used_by : Option Int := none
  used_at : Option Nat := none
deriving DecidableEq

/-- A row of the append-only `redeems` table (a RedemptionRecord). -/
structure RedeemRow where
  tg_id : Int := 0
  coupon_type : String := ""
  coupon_code : String := ""
  points_spent : Int := 0
deriving DecidableEq

/-- A row of the `device_verifications` table: `device_id` is the unique
key (enforced by `on conflict (device_id)`), `tg_id` the bound account,
`verified_at` the binding timestamp. -/
structure DeviceBinding where
  device_id : String := ""
  tg_id : Int := 0
  verified_at : Nat := 0
deriving DecidableEq

/-- The whole relational state.  `rules` is the merged view returned by
`get_redeem_rules()` (stored setting with the hard-coded defaults filled
in): it maps a coupon class to its point cost.  `next_coupon_id` models
the serial sequence backing `coupons.id`. -/
structure DB where
  users : List User := []
  coupons : List Coupon := []
  redeems : List RedeemRow := []
  device_verifications : List DeviceBinding := []
  rules : String → Int := fun _ => 0
  next_coupon_id : Nat := 1

/-- `update t set ... where c`: apply `f` to every row satisfying `c`. -/
def updWhere (c : α → Bool) (f : α → α) (l : List α) : List α :=
  l.map fun a => if c a then f a else a

/-- `select * from users where tg_id=%s ... fetchone` (identical helper
`get_user` in `app.py` and `bot.py`). -/
def get_user (db : DB) (uid : Int) : Option User :=
  db.users.find? fun u => u.tg_id == uid

/-- `coupon_label` (identical in `app.py` and `bot.py`): display label of
a coupon class, the class itself when unknown. -/
def coupon_label (t : String) : String :=
  if t == "500" then "500 off 500"
  else if t == "1000" then "1000 off 1000"
  else if t == "2000" then "2000 off 2000"
  else if t == "4000" then "4000 off 4000"
  else t

/-- Python's `str.strip()`: drop leading and trailing whitespace.
Written on the character list so that it evaluates by kernel reduction. -/
def pyStrip (s : String) : String :=
  ⟨((s.data.dropWhile Char.isWhitespace).reverse.dropWhile
      Char.isWhitespace).reverse⟩

/-- Python truthiness of the nullable integer `u.get("referred_by")`:
`None` and `0` are falsy, everything else truthy. -/
def truthyRef : Option Int → Bool
  | none => false
  | some x => !(x == 0)

/-- One fold step selecting the row with the least `id`. -/
def pickOlder (acc : Option Coupon) (c : Coupon) : Option Coupon :=
  match acc with
  | none => some c
  | some b => if c.id < b.id then some c else some b

/-- `select id, code from coupons where coupon_type=%s and is_used=false
order by id asc limit 1`: the unused coupon of class `t` with the least
serial id. -/
def oldestUnused (cs : List Coupon) (t : String) : Option Coupon :=
  (cs.filter fun c => c.coupon_type == t && !c.is_used).foldl pickOlder none

namespace App

/-- `app.py` lines 140-146 (`set_referred_by_if_needed`): record the
referrer on first contact; a no-op on self-referral, on an unknown user
and when a referrer is already recorded. -/
def set_referred_by_if_needed (db : DB) (new_uid ref_uid : Int) : DB :=
  if new_uid == ref_uid then db
  else
    match db.users.find? (fun u => u.tg_id == new_uid) with
    | none => db
    | some row =>
      if !(row.referred_by == none) then db
      else
        { db with
          users := updWhere (fun w => w.tg_id == new_uid)
            (fun w => { w with referred_by := some ref_uid }) db.users }

/-- `app.py` lines 148-166 (`award_referral_if_applicable`): award +1
point and +1 referral to the referrer, claimed through the conditional
update `set referral_awarded=true where tg_id=%s and referral_awarded=false`
(`cur.rowcount` is the number of rows that update touched). -/
def award_referral_if_applicable (db : DB) (new_uid : Int) : Option Int × DB :=
  match get_user db new_uid with
  | none => (none, db)
  | some u =>
    if !u.verified || u.referral_awarded || !truthyRef u.referred_by then (none, db)
    else
      if (db.users.countP fun w => w.tg_id == new_uid && !w.referral_awarded) = 0 then
        (none, db)
      else
        (some (u.referred_by.getD 0),
         { db with
           users := updWhere (fun w => w.tg_id == u.referred_by.getD 0)
             (fun w => { w with points := w.points + 1, referrals := w.referrals + 1 })
             (updWhere (fun w => w.tg_id == new_uid && !w.referral_awarded)
               (fun w => { w with referral_awarded := true }) db.users) })

/-- `app.py` lines 239-278 (`redeem_coupon`): validate, pick the oldest
unused coupon of the class, mark it used, debit the cost (`need`, the
configured point cost of the class) and append the redemption record;
result is the `(ok, message-or-code, points_spent)` triple the handler
receives. -/
def redeem_coupon (db : DB) (uid : Int) (t : String) (now : Nat) :
    (Bool × String × Int) × DB :=
  if (["500", "1000", "2000", "4000"].contains t) = false then
    ((false, "Invalid option.", 0), db)
  else
    match get_user db uid with
    | none => ((false, "User not found.", 0), db)
    | some u =>
      if !u.verified then ((false, "Please verify first.", 0), db)
      else
        if u.points < db.rules t then
          ((false, "Not enough points.\nRequired: " ++ toString (db.rules t)
              ++ "\nYou have: " ++ toString u.points, 0), db)
        else
          match oldestUnused db.coupons t with
          | none => ((false, "Out of stock for " ++ coupon_label t, 0), db)
          | some c =>
            ((true, c.code, db.rules t),
             { db with
               users := updWhere (fun w => w.tg_id == uid)
                 (fun w => { w with points := w.points - db.rules t }) db.users,
               coupons := updWhere (fun x => x.id == c.id)
                 (fun x => { x with is_used := true, used_by := some uid,
                                    used_at := some now }) db.coupons,
               redeems := db.redeems ++ [⟨uid, t, c.code, db.rules t⟩] })

/-- `app.py` lines 286-319 (`verify_on_web`): resolve the token, run the
two binding checks, then set `verified` and upsert the device binding. -/
def verify_on_web (db : DB) (token device_id : String) (now : Nat) :
    (Bool × String × Option Int) × DB :=
  if pyStrip token == "" || pyStrip device_id == "" then
    ((false, "Missing token/device.", none), db)
  else
    match db.users.find? (fun u => u.verify_token == some (pyStrip token)) with
    | none => ((false, "Invalid or expired token.", none), db)
    | some u =>
      if (match db.device_verifications.find?
            (fun r => r.device_id == pyStrip device_id) with
          | some r => !(r.tg_id == u.tg_id)
          | none => false) then
        ((false, "This device is already verified with another account.", some u.tg_id), db)
      else
        if (match db.device_verifications.find? (fun r => r.tg_id == u.tg_id) with
            | some r => !(r.device_id == pyStrip device_id)
            | none => false) then
          ((false, "This Telegram ID is already verified on a different device.", some u.tg_id), db)
        else
          ((true, "Verified successfully. Now go back and click Check Verification.", some u.tg_id),
           { db with
             users := updWhere (fun w => w.tg_id == u.tg_id)
               (fun w => { w with verified := true }) db.users,
             device_verifications :=
               if db.device_verifications.any (fun r => r.device_id == pyStrip device_id) then
                 updWhere (fun r => r.device_id == pyStrip device_id)
                   (fun r => { r with tg_id := u.tg_id, verified_at := now })
                   db.device_verifications
               else
                 db.device_verifications ++ [⟨pyStrip device_id, u.tg_id, now⟩] })

/-- `app.py` lines 281-284 (`create_verify_token`): store a freshly drawn
token (the random draw is passed in) on the user row. -/
def create_verify_token (db : DB) (uid : Int) (token : String) : DB :=
  { db with
    users := updWhere (fun w => w.tg_id == uid)
      (fun w => { w with verify_token := some token }) db.users }

/-- `app.py` lines 107-118 (`upsert_user`): insert the user or refresh
`username`, `first_name`, `last_seen`. -/
def upsert_user (db : DB) (uid : Int) (username first_name : Option String)
    (now : Nat) : DB :=
  if db.users.any (fun w => w.tg_id == uid) then
    { db with
      users := updWhere (fun w => w.tg_id == uid)
        (fun w => { w with username := username, first_name := first_name,
                           last_seen := now }) db.users }
  else
    { db with
      users := db.users ++
        [{ tg_id := uid, username := username, first_name := first_name,
           last_seen := now }] }

/-- `app.py` lines 123-127 (`set_state`): store the pending admin-wizard
state tag and payload. -/
def set_state (db : DB) (uid : Int) (st sd : Option String) : DB :=
  { db with
    users := updWhere (fun w => w.tg_id == uid)
      (fun w => { w with state := st, state_data := sd }) db.users }

/-- `app.py` lines 205-218 (`add_coupons`): strip the submitted codes,
drop empties and insert each as a fresh unused coupon. -/
def add_coupons (db : DB) (t : String) (codes : List String) : Int × DB :=
  if (["500", "1000", "2000", "4000"].contains t) = false then (0, db)
  else
    let cleaned := (codes.map pyStrip).filter fun c => !(c == "")
    if cleaned.isEmpty then (0, db)
    else
      let fresh := cleaned.enum.map fun p =>
        ({ id := db.next_coupon_id + p.1, coupon_type := t, code := p.2 } : Coupon)
      (Int.ofNat cleaned.length,
       { db with coupons := db.coupons ++ fresh,
                 next_coupon_id := db.next_coupon_id + cleaned.length })

/-- Insertion into an ascending list of ids. -/
def insertAsc (x : Nat) : List Nat → List Nat
  | [] => [x]
  | y :: ys => if x ≤ y then x :: y :: ys else y :: insertAsc x ys

/-- Ascending sort of a list of ids (`order by id asc`). -/
def sortAsc (l : List Nat) : List Nat := l.foldr insertAsc []

/-- `app.py` lines 220-237 (`remove_unused_coupons`): delete the `count`
oldest unused coupons of class `t`, returning the delete rowcount. -/
def remove_unused_coupons (db : DB) (t : String) (count : Int) : Int × DB :=
  if (["500", "1000", "2000", "4000"].contains t) = false ∨ count ≤ 0 then (0, db)
  else
    let victims :=
      (sortAsc ((db.coupons.filter fun c => c.coupon_type == t && !c.is_used).map
        Coupon.id)).take count.toNat
    let remaining := db.coupons.filter fun c => !(victims.contains c.id)
    (Int.ofNat (db.coupons.length - remaining.length), { db with coupons := remaining })

/-- Admin rule edit (`app.py` lines 443-454): `rules[t]["points"] = max(0, num)`
persisted through `set_setting`, visible as a point-wise update of the
merged rules view. -/
def set_rule_points (db : DB) (t : String) (v : Int) : DB :=
  { db with rules := fun k => if k = t then max 0 v else db.rules k }

/-- One state-mutating operation of `app.py`, used to speak about
arbitrary sequences of subsequent operations. -/
inductive Step where
  | upsertUser (uid : Int) (username first_name : Option String) (now : Nat)
  | setReferred (new_uid ref_uid : Int)
  | award (uid : Int)
  | addCoupons (t : String) (codes : List String)
  | removeCoupons (t : String) (count : Int)
  | redeem (uid : Int) (t : String) (now : Nat)
  | createToken (uid : Int) (token : String)
  | verifyWeb (token device_id : String) (now : Nat)
  | setRulePoints (t : String) (v : Int)
  | setState (uid : Int) (st sd : Option String)

/-- The state transition of each operation. -/
def applyStep : Step → DB → DB
  | .upsertUser uid un fn now, db => upsert_user db uid un fn now
  | .setReferred a b, db => set_referred_by_if_needed db a b
  | .award uid, db => (award_referral_if_applicable db uid).2
  | .addCoupons t codes, db => (add_coupons db t codes).2
  | .removeCoupons t n, db => (remove_unused_coupons db t n).2
  | .redeem uid t now, db => (redeem_coupon db uid t now).2
  | .createToken uid tok, db => create_verify_token db uid tok
  | .verifyWeb tok dev now, db => (verify_on_web db tok dev now).2
  | .setRulePoints t v, db => set_rule_points db t v
  | .setState uid st sd, db => set_state db uid st sd

/-- Iterated awarding: call `award_referral_if_applicable` `n` times in
sequence, keeping the state. -/
def awardIter (uid : Int) : Nat → DB → DB
  | 0, db => db
  | n + 1, db => awardIter uid n (award_referral_if_applicable db uid).2

end App

namespace Bot

/-- `bot.py` lines 154-160 (`set_referred_by_if_needed`): the duplicated
variant, translated from `bot.py` on its own. -/
def set_referred_by_if_needed (db : DB) (new_uid ref_uid : Int) : DB :=
  if new_uid == ref_uid then db
  else
    match db.users.find? (fun u => u.tg_id == new_uid) with
    | none => db
    | some row =>
      if !(row.referred_by == none) then db
      else
        { db with
          users := updWhere (fun w => w.tg_id == new_uid)
            (fun w => { w with referred_by := some ref_uid }) db.users }

/-- `bot.py` lines 162-180 (`award_referral_if_applicable`): the
duplicated variant, translated from `bot.py` on its own. -/
def award_referral_if_applicable (db : DB) (new_uid : Int) : Option Int × DB :=
  match get_user db new_uid with
  | none => (none, db)
  | some u =>
    if !u.verified || u.referral_awarded || !truthyRef u.referred_by then (none, db)
    else
      if (db.users.countP fun w => w.tg_id == new_uid && !w.referral_awarded) = 0 then
        (none, db)
      else
        (some (u.referred_by.getD 0),
         { db with
           users := updWhere (fun w => w.tg_id == u.referred_by.getD 0)
             (fun w => { w with points := w.points + 1, referrals := w.referrals + 1 })
             (updWhere (fun w => w.tg_id == new_uid && !w.referral_awarded)
               (fun w => { w with referral_awarded := true }) db.users) })

/-- `bot.py` lines 217-262 (`redeem_coupon`): the duplicated variant,
translated from `bot.py` on its own. -/
def redeem_coupon (db : DB) (uid : Int) (t : String) (now : Nat) :
    (Bool × String × Int) × DB :=
  if (["500", "1000", "2000", "4000"].contains t) = false then
    ((false, "Invalid option.", 0), db)
  else
    match get_user db uid with
    | none => ((false, "User not found.", 0), db)
    | some u =>
      if !u.verified then ((false, "Please verify first.", 0), db)
      else
        if u.points < db.rules t then
          ((false, "Not enough points.\nRequired: " ++ toString (db.rules t)
              ++ "\nYou have: " ++ toString u.points, 0), db)
        else
          match oldestUnused db.coupons t with
          | none => ((false, "Out of stock for " ++ coupon_label t, 0), db)
          | some c =>
            ((true, c.code, db.rules t),
             { db with
               users := updWhere (fun w => w.tg_id == uid)
                 (fun w => { w with points := w.points - db.rules t }) db.users,
               coupons := updWhere (fun x => x.id == c.id)
                 (fun x => { x with is_used := true, used_by := some uid,
                                    used_at := some now }) db.coupons,
               redeems := db.redeems ++ [⟨uid, t, c.code, db.rules t⟩] })

end Bot

/-! ## Generic lemmas about the table operations -/

theorem find?_updWhere {α : Type} (p c : α → Bool) (f : α → α)
    (hf : ∀ a, p (f a) = p a) (l : List α) :
    (updWhere c f l).find? p =
      (l.find? p).map (fun a => if c a then f a else a) := by
  have hg : (p ∘ fun a => if c a then f a else a) = p := by
    funext a
    by_cases h : c a
    · simp [h, hf]
    · simp [h]
  unfold updWhere
  rw [List.find?_map, hg]

/-- `App.redeem_coupon` either succeeds or returns the state unchanged:
every early return hands back the untouched `db`. -/
theorem redeem_cases (db : DB) (uid : Int) (t : String) (now : Nat) :
    (App.redeem_coupon db uid t now).1.1 = true ∨
      (App.redeem_coupon db uid t now).2 = db := by
  unfold App.redeem_coupon
  split
  · exact Or.inr rfl
  · split
    · exact Or.inr rfl
    · split
      · exact Or.inr rfl
      · split
        · exact Or.inr rfl
        · split
          · exact Or.inr rfl
          · exact Or.inl rfl

/-! ## The claims -/

/-- C9: the duplicated variants of the three core operations in `app.py`
and `bot.py` agree on every input and every starting state, both in
result and in the state they produce. -/
theorem app_bot_core_functions_equivalent :
    ∀ (db : DB) (a b : Int) (t : String) (now : Nat),
      Bot.set_referred_by_if_needed db a b = App.set_referred_by_if_needed db a b ∧
      Bot.award_referral_if_applicable db a = App.award_referral_if_applicable db a ∧
      Bot.redeem_coupon db a t now = App.redeem_coupon db a t now :=
  fun _ _ _ _ _ => ⟨rfl, rfl, rfl⟩

/-- C2: whenever `redeem_coupon` reports failure, the whole state is
returned unchanged — no coupon is marked used, no balance moves and no
redemption record is appended. -/
theorem redeem_failure_is_stateless (db : DB) (uid : Int) (t : String) (now : Nat)
    (h : (App.redeem_coupon db uid t now).1.1 = false) :
    (App.redeem_coupon db uid t now).2 = db := by
  rcases redeem_cases db uid t now with ht | hdb
  · rw [ht] at h
    cases h
  · exact hdb

/-- Witness for C2: an invalid class is rejected and the state survives
untouched. -/
theorem redeem_failure_is_stateless_witness :
    (App.redeem_coupon { users := [] } 1 "999" 0).2 = { users := [] } :=
  redeem_failure_is_stateless { users := [] } 1 "999" 0 rfl

/-! ## C1: the referral award -/

/-- A state exercising the claim: account 7 is verified, not yet awarded,
and carries the non-null referrer id 0; account 0 exists. -/
def dbC1 : DB :=
  { users := [{ tg_id := 7, verified := true, referred_by := some 0 },
              { tg_id := 0 }] }

/-- C1 counterexample: account 7 is verified, `referral_awarded = false`
and `referred_by` is the non-null referrer 0, yet the first award call
returns no award and changes nothing — `not u.get("referred_by")` treats
the integer 0 as missing. -/
theorem award_zero_referrer_counterexample :
    (get_user dbC1 7).map User.referred_by = some (some 0) ∧
    (get_user dbC1 7).map User.verified = some true ∧
    (get_user dbC1 7).map User.referral_awarded = some false ∧
    (get_user dbC1 0).map User.points = some 0 ∧
    App.award_referral_if_applicable dbC1 7 = (none, dbC1) :=
  ⟨rfl, rfl, rfl, rfl, rfl⟩

/-- C1 (amended to a nonzero referrer): for an account that is verified,
unawarded and referred by a non-null, nonzero `R` that exists, the first
award call returns `R`, sets `referral_awarded`, credits `R` with exactly
+1 point and +1 referral, and every further sequential call returns no
award and leaves the state unchanged. -/
theorem award_credits_referrer_exactly_once
    (db : DB) (uid R : Int) (u ru : User)
    (hu : get_user db uid = some u)
    (hv : u.verified = true)
    (ha : u.referral_awarded = false)
    (hr : u.referred_by = some R)
    (hR : R ≠ 0)
    (hru : get_user db R = some ru) :
    (App.award_referral_if_applicable db uid).1 = some R ∧
    (get_user (App.award_referral_if_applicable db uid).2 uid).map User.referral_awarded
      = some true ∧
    (get_user (App.award_referral_if_applicable db uid).2 R).map User.points
      = some (ru.points + 1) ∧
    (get_user (App.award_referral_if_applicable db uid).2 R).map User.referrals
      = some (ru.referrals + 1) ∧
    App.award_referral_if_applicable (App.award_referral_if_applicable db uid).2 uid
      = (none, (App.award_referral_if_applicable db uid).2) ∧
    (∀ n, App.awardIter uid n (App.award_referral_if_applicable db uid).2
      = (App.award_referral_if_applicable db uid).2) := by
  have hu' : db.users.find? (fun w => w.tg_id == uid) = some u := hu
  have hru' : db.users.find? (fun w => w.tg_id == R) = some ru := hru
  have hpu : (u.tg_id == uid) = true := by
    have h := List.find?_some hu'
    simpa using h
  have hpru : (ru.tg_id == R) = true := by
    have h := List.find?_some hru'
    simpa using h
  have hcond : (!u.verified || u.referral_awarded || !truthyRef u.referred_by) = false := by
    rw [hv, ha, hr]
    simp [truthyRef, hR]
  have hcount : ¬ (db.users.countP fun w => w.tg_id == uid && !w.referral_awarded) = 0 := by
    have hmem : u ∈ db.users := List.mem_of_find?_eq_some hu'
    have hpos : 0 < db.users.countP fun w => w.tg_id == uid && !w.referral_awarded := by
      refine List.countP_pos_iff.mpr ⟨u, hmem, ?_⟩
      rw [hpu, ha]
      rfl
    omega
  have hres : App.award_referral_if_applicable db uid =
      (some R,
       { db with
         users := updWhere (fun w => w.tg_id == R)
           (fun w => { w with points := w.points + 1, referrals := w.referrals + 1 })
           (updWhere (fun w => w.tg_id == uid && !w.referral_awarded)
             (fun w => { w with referral_awarded := true }) db.users) }) := by
    unfold App.award_referral_if_applicable
    simp only [hu, hcond, hr]
    simp [hcount]
    exact ⟨⟨hv, ha⟩, by simp [truthyRef, hR]⟩
  have hstep : ∀ k : Int,
      get_user (App.award_referral_if_applicable db uid).2 k =
        ((db.users.find? (fun w => w.tg_id == k)).map
          (fun a => if a.tg_id == uid && !a.referral_awarded
                    then { a with referral_awarded := true } else a)).map
          (fun a => if a.tg_id == R
                    then { a with points := a.points + 1, referrals := a.referrals + 1 }
                    else a) := by
    intro k
    have hinner := @find?_updWhere User (fun w => w.tg_id == k)
      (fun w => w.tg_id == uid && !w.referral_awarded)
      (fun w => { w with referral_awarded := true })
      (fun a => rfl) db.users
    have houter := @find?_updWhere User (fun w => w.tg_id == k)
      (fun w => w.tg_id == R)
      (fun w => { w with points := w.points + 1, referrals := w.referrals + 1 })
      (fun a => rfl)
      (updWhere (fun w => w.tg_id == uid && !w.referral_awarded)
        (fun w => { w with referral_awarded := true }) db.users)
    rw [hres]
    show (updWhere (fun w => w.tg_id == R)
        (fun w => { w with points := w.points + 1, referrals := w.referrals + 1 })
        (updWhere (fun w => w.tg_id == uid && !w.referral_awarded)
          (fun w => { w with referral_awarded := true }) db.users)).find?
        (fun w => w.tg_id == k) = _
    rw [houter, hinner]
  have e0 : (if u.tg_id == uid && !u.referral_awarded
             then { u with referral_awarded := true } else u)
      = { u with referral_awarded := true } := by
    rw [hpu, ha]
    rfl
  have h2 : (get_user (App.award_referral_if_applicable db uid).2 uid).map
      User.referral_awarded = some true := by
    rw [hstep uid, hu']
    simp only [Option.map_some']
    rw [e0]
    by_cases hk : (({ u with referral_awarded := true } : User).tg_id == R) = true
    · simp [hk]
    · simp [hk]
  have h3 : get_user (App.award_referral_if_applicable db uid).2 R
      = some { ru with points := ru.points + 1, referrals := ru.referrals + 1,
                       referral_awarded := if uid = R then true else ru.referral_awarded } := by
    rw [hstep R, hru']
    have hrt : ru.tg_id = R := by simpa using hpru
    by_cases huR : uid = R
    · have huu : ru = u := by
        rw [← huR] at hru'
        rw [hu'] at hru'
        exact (Option.some.inj hru').symm
      subst huu
      simp [hrt, ha, huR]
    · have hRu : R ≠ uid := Ne.symm huR
      simp [hrt, hRu, huR]
  have h5 : App.award_referral_if_applicable
      (App.award_referral_if_applicable db uid).2 uid
      = (none, (App.award_referral_if_applicable db uid).2) := by
    have hmap := h2
    generalize hdb1 : (App.award_referral_if_applicable db uid).2 = db1
    rw [hdb1] at hmap
    rcases hw : get_user db1 uid with _ | w
    · rw [hw] at hmap
      cases hmap
    · rw [hw] at hmap
      simp only [Option.map_some'] at hmap
      have hwf : w.referral_awarded = true := Option.some.inj hmap
      have hcondw : (!w.verified || w.referral_awarded || !truthyRef w.referred_by) = true := by
        rw [hwf]
        simp
      unfold App.award_referral_if_applicable
      simp [hw, hcondw]
  refine ⟨by rw [hres], h2, ?_, ?_, h5, ?_⟩
  · rw [h3]
    rfl
  · rw [h3]
    rfl
  · intro n
    induction n with
    | zero => rfl
    | succ m ih =>
      have hit : App.awardIter uid (m + 1) (App.award_referral_if_applicable db uid).2
          = App.awardIter uid m
              (App.award_referral_if_applicable
                (App.award_referral_if_applicable db uid).2 uid).2 := rfl
      rw [hit, h5]
      exact ih

/-- Witness for the amended C1 at a concrete state: account 7 referred by
account 3. -/
theorem award_credits_referrer_exactly_once_witness :
    (App.award_referral_if_applicable
      { users := [{ tg_id := 7, verified := true, referred_by := some 3 },
                  { tg_id := 3, points := 10, referrals := 2 }] } 7).1 = some 3 ∧
    (get_user (App.award_referral_if_applicable
      { users := [{ tg_id := 7, verified := true, referred_by := some 3 },
                  { tg_id := 3, points := 10, referrals := 2 }] } 7).2 7).map
        User.referral_awarded = some true ∧
    (get_user (App.award_referral_if_applicable
      { users := [{ tg_id := 7, verified := true, referred_by := some 3 },
                  { tg_id := 3, points := 10, referrals := 2 }] } 7).2 3).map
        User.points = some 11 ∧
    (get_user (App.award_referral_if_applicable
      { users := [{ tg_id := 7, verified := true, referred_by := some 3 },
                  { tg_id := 3, points := 10, referrals := 2 }] } 7).2 3).map
        User.referrals = some 3 ∧
    App.award_referral_if_applicable (App.award_referral_if_applicable
      { users := [{ tg_id := 7, verified := true, referred_by := some 3 },
                  { tg_id := 3, points := 10, referrals := 2 }] } 7).2 7
      = (none, (App.award_referral_if_applicable
          { users := [{ tg_id := 7, verified := true, referred_by := some 3 },
                      { tg_id := 3, points := 10, referrals := 2 }] } 7).2) ∧
    (∀ n, App.awardIter 7 n (App.award_referral_if_applicable
      { users := [{ tg_id := 7, verified := true, referred_by := some 3 },
                  { tg_id := 3, points := 10, referrals := 2 }] } 7).2
      = (App.award_referral_if_applicable
          { users := [{ tg_id := 7, verified := true, referred_by := some 3 },
                      { tg_id := 3, points := 10, referrals := 2 }] } 7).2) :=
  award_credits_referrer_exactly_once _ 7 3
    { tg_id := 7, verified := true, referred_by := some 3 }
    { tg_id := 3, points := 10, referrals := 2 }
    rfl rfl rfl rfl (by decide) rfl

/-! ## Coupon selection: properties of `oldestUnused` -/

theorem foldl_pickOlder_of_some (l : List Coupon) :
    ∀ c : Coupon, ∃ r, l.foldl pickOlder (some c) = some r := by
  induction l with
  | nil => exact fun c => ⟨c, rfl⟩
  | cons x xs ih =>
    intro c
    rw [List.foldl_cons]
    by_cases h : x.id < c.id
    · simpa [pickOlder, h] using ih x
    · simpa [pickOlder, h] using ih c

theorem foldl_pickOlder_spec (l : List Coupon) :
    ∀ (acc : Option Coupon) (r : Coupon), l.foldl pickOlder acc = some r →
      (acc = some r ∨ r ∈ l) ∧ (∀ b, acc = some b → r.id ≤ b.id) ∧
        (∀ d ∈ l, r.id ≤ d.id) := by
  induction l with
  | nil =>
    intro acc r h
    have h' : acc = some r := h
    refine ⟨Or.inl h', fun b hb => ?_, fun d hd => absurd hd (List.not_mem_nil d)⟩
    rw [h'] at hb
    exact le_of_eq (congrArg Coupon.id (Option.some.inj hb))
  | cons x xs ih =>
    intro acc r h
    rw [List.foldl_cons] at h
    obtain ⟨hmem, hacc, hall⟩ := ih (pickOlder acc x) r h
    refine ⟨?_, ?_, ?_⟩
    · rcases hmem with hm | hm
      · cases acc with
        | none =>
          have hx : x = r := by simpa [pickOlder] using hm
          exact Or.inr (hx ▸ List.mem_cons_self x xs)
        | some b =>
          by_cases hlt : x.id < b.id
          · have hx : x = r := by simpa [pickOlder, hlt] using hm
            exact Or.inr (hx ▸ List.mem_cons_self x xs)
          · have hb : b = r := by simpa [pickOlder, hlt] using hm
            exact Or.inl (by rw [hb])
      · exact Or.inr (List.mem_cons_of_mem x hm)
    · intro b hb
      subst hb
      by_cases hlt : x.id < b.id
      · have h1 := hacc x (by simp [pickOlder, hlt])
        exact le_trans h1 (le_of_lt hlt)
      · exact hacc b (by simp [pickOlder, hlt])
    · intro d hd
      rcases List.mem_cons.mp hd with hdx | hdxs
      · subst hdx
        cases acc with
        | none => exact hacc d (by simp [pickOlder])
        | some b =>
          by_cases hlt : d.id < b.id
          · exact hacc d (by simp [pickOlder, hlt])
          · have h1 := hacc b (by simp [pickOlder, hlt])
            exact le_trans h1 (Nat.le_of_not_lt hlt)
      · exact hall d hdxs

theorem oldestUnused_spec (cs : List Coupon) (t : String) (c : Coupon)
    (h : oldestUnused cs t = some c) :
    c ∈ cs ∧ c.coupon_type = t ∧ c.is_used = false ∧
      ∀ d ∈ cs, d.coupon_type = t → d.is_used = false → c.id ≤ d.id := by
  unfold oldestUnused at h
  obtain ⟨hmem, -, hall⟩ := foldl_pickOlder_spec _ none c h
  rcases hmem with hm | hm
  · cases hm
  · obtain ⟨hmem', hpred⟩ := List.mem_filter.mp hm
    have hct : c.coupon_type = t ∧ c.is_used = false := by
      constructor
      · have := (Bool.and_eq_true _ _).mp hpred |>.1
        simpa using this
      · have := (Bool.and_eq_true _ _).mp hpred |>.2
        simpa using this
    refine ⟨hmem', hct.1, hct.2, fun d hd hdt hdu => ?_⟩
    exact hall d (List.mem_filter.mpr ⟨hd, by simp [hdt, hdu]⟩)

theorem oldestUnused_of_filter_ne_nil (cs : List Coupon) (t : String)
    (h : (cs.filter fun c => c.coupon_type == t && !c.is_used) ≠ []) :
    ∃ r, oldestUnused cs t = some r := by
  unfold oldestUnused
  rcases hf : cs.filter fun c => c.coupon_type == t && !c.is_used with _ | ⟨x, xs⟩
  · exact absurd hf h
  · rw [hf, List.foldl_cons]
    have hpx : pickOlder none x = some x := rfl
    rw [hpx]
    exact foldl_pickOlder_of_some xs x

/-- Inversion of a successful redemption: the exact validation facts and
the exact shape of the updated state. -/
theorem redeem_success_spec (db : DB) (uid : Int) (t : String) (now : Nat)
    (h : (App.redeem_coupon db uid t now).1.1 = true) :
    ∃ u c, get_user db uid = some u ∧ u.verified = true ∧
      ¬ u.points < db.rules t ∧ oldestUnused db.coupons t = some c ∧
      (["500", "1000", "2000", "4000"].contains t) = true ∧
      App.redeem_coupon db uid t now =
        ((true, c.code, db.rules t),
         { db with
           users := updWhere (fun w => w.tg_id == uid)
             (fun w => { w with points := w.points - db.rules t }) db.users,
           coupons := updWhere (fun x => x.id == c.id)
             (fun x => { x with is_used := true, used_by := some uid,
                                used_at := some now }) db.coupons,
           redeems := db.redeems ++ [⟨uid, t, c.code, db.rules t⟩] }) := by
  unfold App.redeem_coupon at h ⊢
  split at h
  · simp at h
  next hcl =>
    split at h
    next hu => simp at h
    next u hu =>
      split at h
      next hv => simp at h
      next hv =>
        split at h
        next hp => simp at h
        next hp =>
          split at h
          next hoc => simp at h
          next c hoc =>
            refine ⟨u, c, hu, by simpa using hv, hp, hoc, ?_, ?_⟩
            · cases hb : ["500", "1000", "2000", "4000"].contains t
              · exact absurd hb hcl
              · rfl
            · rw [if_neg hcl, if_neg hv, if_neg hp]

/-- C3: in any state where the account is verified with exactly 25
points, class "2000" costs 25 and its only unused coupon is `c` with
code "C-99", redemption succeeds with `("C-99", 25)`, the balance drops
to 0, coupon `c` is marked used by the account, and exactly one new
redemption record is appended. -/
theorem redeem_scenario_c99 (db : DB) (uid : Int) (now : Nat) (u : User) (c : Coupon)
    (hu : get_user db uid = some u)
    (hv : u.verified = true)
    (hp : u.points = 25)
    (hrule : db.rules "2000" = 25)
    (hfilter : (db.coupons.filter fun x => x.coupon_type == "2000" && !x.is_used) = [c])
    (hcode : c.code = "C-99") :
    (App.redeem_coupon db uid "2000" now).1 = (true, "C-99", 25) ∧
    (get_user (App.redeem_coupon db uid "2000" now).2 uid).map User.points = some 0 ∧
    ({ c with is_used := true, used_by := some uid, used_at := some now } ∈
      (App.redeem_coupon db uid "2000" now).2.coupons) ∧
    (App.redeem_coupon db uid "2000" now).2.redeems
      = db.redeems ++ [⟨uid, "2000", "C-99", 25⟩] := by
  have hu' : db.users.find? (fun w => w.tg_id == uid) = some u := hu
  have hpu : (u.tg_id == uid) = true := by
    have h := List.find?_some hu'
    simpa using h
  have hoc : oldestUnused db.coupons "2000" = some c := by
    unfold oldestUnused
    rw [hfilter]
    rfl
  have hcl : ¬ ((["500", "1000", "2000", "4000"].contains "2000") = false) := by decide
  have hnv : ¬ ((!u.verified) = true) := by
    rw [hv]
    simp
  have hnl : ¬ u.points < db.rules "2000" := by
    rw [hp, hrule]
    omega
  have heq : App.redeem_coupon db uid "2000" now =
      ((true, c.code, db.rules "2000"),
       { db with
         users := updWhere (fun w => w.tg_id == uid)
           (fun w => { w with points := w.points - db.rules "2000" }) db.users,
         coupons := updWhere (fun x => x.id == c.id)
           (fun x => { x with is_used := true, used_by := some uid,
                              used_at := some now }) db.coupons,
         redeems := db.redeems ++ [⟨uid, "2000", c.code, db.rules "2000"⟩] }) := by
    unfold App.redeem_coupon
    rw [if_neg hcl]
    simp only [hu]
    rw [if_neg hnv, if_neg hnl, hoc]
  have hcfmem : c ∈ db.coupons := by
    have hc1 : c ∈ db.coupons.filter fun x => x.coupon_type == "2000" && !x.is_used := by
      rw [hfilter]
      exact List.mem_cons_self c []
    exact List.mem_of_mem_filter hc1
  refine ⟨?_, ?_, ?_, ?_⟩
  · rw [heq]
    show (true, c.code, db.rules "2000") = (true, "C-99", 25)
    rw [hcode, hrule]
  · rw [heq]
    show ((updWhere (fun w => w.tg_id == uid)
        (fun w => { w with points := w.points - db.rules "2000" }) db.users).find?
          (fun w => w.tg_id == uid)).map User.points = some 0
    rw [@find?_updWhere User (fun w => w.tg_id == uid) (fun w => w.tg_id == uid)
          (fun w => { w with points := w.points - db.rules "2000" }) (fun a => rfl)
          db.users, hu']
    have hput : u.tg_id = uid := by simpa using hpu
    simp [hput, hp, hrule]
  · rw [heq]
    show _ ∈ updWhere (fun x => x.id == c.id)
      (fun x => { x with is_used := true, used_by := some uid, used_at := some now })
      db.coupons
    exact List.mem_map.mpr ⟨c, hcfmem, by simp⟩
  · rw [heq]
    show db.redeems ++ [⟨uid, "2000", c.code, db.rules "2000"⟩]
      = db.redeems ++ [⟨uid, "2000", "C-99", 25⟩]
    rw [hcode, hrule]

/-- The concrete state of the specified scenario. -/
def dbC3 : DB :=
  { users := [{ tg_id := 1, verified := true, points := 25 }],
    coupons := [{ id := 5, coupon_type := "2000", code := "C-99" }],
    rules := fun t => if t = "2000" then 25 else 999999 }

/-- Witness for C3 on the concrete scenario state. -/
theorem redeem_scenario_c99_witness :
    (App.redeem_coupon dbC3 1 "2000" 42).1 = (true, "C-99", 25) ∧
    (get_user (App.redeem_coupon dbC3 1 "2000" 42).2 1).map User.points = some 0 ∧
    ({ id := 5, coupon_type := "2000", code := "C-99", is_used := true,
       used_by := some 1, used_at := some 42 } ∈
      (App.redeem_coupon dbC3 1 "2000" 42).2.coupons) ∧
    (App.redeem_coupon dbC3 1 "2000" 42).2.redeems = [⟨1, "2000", "C-99", 25⟩] :=
  redeem_scenario_c99 dbC3 1 42
    { tg_id := 1, verified := true, points := 25 }
    { id := 5, coupon_type := "2000", code := "C-99" }
    rfl rfl rfl rfl rfl rfl

/-- C4: for a verified account and a valid class with stock, redeeming
with a balance exactly equal to the configured cost succeeds and leaves
the balance at 0, and redeeming with a balance one point short fails
with the insufficient-points message and leaves the state untouched. -/
theorem redeem_cost_boundary (db : DB) (uid : Int) (t : String) (now : Nat) (u : User)
    (hcl : (["500", "1000", "2000", "4000"].contains t) = true)
    (hu : get_user db uid = some u)
    (hv : u.verified = true)
    (hstock : (db.coupons.filter fun x => x.coupon_type == t && !x.is_used) ≠ []) :
    (u.points = db.rules t →
      (App.redeem_coupon db uid t now).1.1 = true ∧
      (get_user (App.redeem_coupon db uid t now).2 uid).map User.points = some 0) ∧
    (u.points = db.rules t - 1 →
      (App.redeem_coupon db uid t now).1.1 = false ∧
      (App.redeem_coupon db uid t now).1.2.1 =
        "Not enough points.\nRequired: " ++ toString (db.rules t)
          ++ "\nYou have: " ++ toString u.points ∧
      (App.redeem_coupon db uid t now).2 = db) := by
  have hu' : db.users.find? (fun w => w.tg_id == uid) = some u := hu
  have hpu : (u.tg_id == uid) = true := by
    have h := List.find?_some hu'
    simpa using h
  have hcl' : ¬ ((["500", "1000", "2000", "4000"].contains t) = false) := by
    rw [hcl]
    simp
  have hnv : ¬ ((!u.verified) = true) := by
    rw [hv]
    simp
  constructor
  · intro hp
    obtain ⟨c, hoc⟩ := oldestUnused_of_filter_ne_nil db.coupons t hstock
    have hnl : ¬ u.points < db.rules t := by
      rw [hp]
      omega
    have heq : App.redeem_coupon db uid t now =
        ((true, c.code, db.rules t),
         { db with
           users := updWhere (fun w => w.tg_id == uid)
             (fun w => { w with points := w.points - db.rules t }) db.users,
           coupons := updWhere (fun x => x.id == c.id)
             (fun x => { x with is_used := true, used_by := some uid,
                                used_at := some now }) db.coupons,
           redeems := db.redeems ++ [⟨uid, t, c.code, db.rules t⟩] }) := by
      unfold App.redeem_coupon
      rw [if_neg hcl']
      simp only [hu]
      rw [if_neg hnv, if_neg hnl, hoc]
    constructor
    · rw [heq]
    · rw [heq]
      show ((updWhere (fun w => w.tg_id == uid)
          (fun w => { w with points := w.points - db.rules t }) db.users).find?
            (fun w => w.tg_id == uid)).map User.points = some 0
      rw [@find?_updWhere User (fun w => w.tg_id == uid) (fun w => w.tg_id == uid)
            (fun w => { w with points := w.points - db.rules t }) (fun a => rfl)
            db.users, hu']
      have hput : u.tg_id = uid := by simpa using hpu
      simp [hput, hp]
  · intro hp
    have hlt : u.points < db.rules t := by
      rw [hp]
      omega
    have heq : App.redeem_coupon db uid t now =
        ((false, "Not enough points.\nRequired: " ++ toString (db.rules t)
            ++ "\nYou have: " ++ toString u.points, 0), db) := by
      unfold App.redeem_coupon
      rw [if_neg hcl']
      simp only [hu]
      rw [if_neg hnv, if_pos hlt]
    exact ⟨by rw [heq], by rw [heq], by rw [heq]⟩

/-- A boundary-state for C4: cost 10, balance exactly 10. -/
def dbC4 : DB :=
  { users := [{ tg_id := 2, verified := true, points := 10 }],
    coupons := [{ id := 1, coupon_type := "1000", code := "X" }],
    rules := fun _ => 10 }

/-- Witness for C4 at a concrete state whose balance equals the cost. -/
theorem redeem_cost_boundary_witness :
    ((10 : Int) = dbC4.rules "1000" →
      (App.redeem_coupon dbC4 2 "1000" 0).1.1 = true ∧
      (get_user (App.redeem_coupon dbC4 2 "1000" 0).2 2).map User.points = some 0) ∧
    ((10 : Int) = dbC4.rules "1000" - 1 →
      (App.redeem_coupon dbC4 2 "1000" 0).1.1 = false ∧
      (App.redeem_coupon dbC4 2 "1000" 0).1.2.1 =
        "Not enough points.\nRequired: " ++ toString (dbC4.rules "1000")
          ++ "\nYou have: " ++ toString (10 : Int) ∧
      (App.redeem_coupon dbC4 2 "1000" 0).2 = dbC4) :=
  redeem_cost_boundary dbC4 2 "1000" 0
    { tg_id := 2, verified := true, points := 10 }
    rfl rfl rfl (by decide)

/-- C5: a successful redemption hands out the unused coupon of the
requested class with the least id (deterministically), marks exactly it
used, and two successful sequential redemptions — by any accounts, for
any classes — never return the same coupon code (given the table's
unique-code invariant). -/
theorem redeem_allocates_oldest_and_codes_distinct (db : DB)
    (hcodes : (db.coupons.map Coupon.code).Nodup)
    (uid uid2 : Int) (t t2 : String) (now now2 : Nat)
    (h1 : (App.redeem_coupon db uid t now).1.1 = true) :
    (∃ c ∈ db.coupons, c.coupon_type = t ∧ c.is_used = false ∧
      (App.redeem_coupon db uid t now).1.2.1 = c.code ∧
      (∀ d ∈ db.coupons, d.coupon_type = t → d.is_used = false → c.id ≤ d.id) ∧
      { c with is_used := true, used_by := some uid, used_at := some now }
        ∈ (App.redeem_coupon db uid t now).2.coupons) ∧
    ((App.redeem_coupon (App.redeem_coupon db uid t now).2 uid2 t2 now2).1.1 = true →
      (App.redeem_coupon (App.redeem_coupon db uid t now).2 uid2 t2 now2).1.2.1
        ≠ (App.redeem_coupon db uid t now).1.2.1) := by
  obtain ⟨u, c, hu, hv, hnl, hoc, hclT, heq⟩ := redeem_success_spec db uid t now h1
  obtain ⟨hcmem, hct, hcu, hmin⟩ := oldestUnused_spec db.coupons t c hoc
  constructor
  · refine ⟨c, hcmem, hct, hcu, by rw [heq], hmin, ?_⟩
    rw [heq]
    show _ ∈ updWhere (fun x => x.id == c.id)
      (fun x => { x with is_used := true, used_by := some uid, used_at := some now })
      db.coupons
    exact List.mem_map.mpr ⟨c, hcmem, by simp⟩
  · intro h2
    obtain ⟨u2, c2, hu2, hv2, hnl2, hoc2, hcl2, heq2⟩ :=
      redeem_success_spec (App.redeem_coupon db uid t now).2 uid2 t2 now2 h2
    obtain ⟨hc2mem, hct2, hc2u, hmin2⟩ :=
      oldestUnused_spec (App.redeem_coupon db uid t now).2.coupons t2 c2 hoc2
    have hc2mem' : c2 ∈ updWhere (fun x => x.id == c.id)
        (fun x => { x with is_used := true, used_by := some uid, used_at := some now })
        db.coupons := by
      rw [heq] at hc2mem
      exact hc2mem
    obtain ⟨d, hdmem, hdeq⟩ := List.mem_map.mp hc2mem'
    by_cases hid : (d.id == c.id) = true
    · rw [if_pos hid] at hdeq
      rw [← hdeq] at hc2u
      simp at hc2u
    · rw [if_neg hid] at hdeq
      subst hdeq
      rw [heq2, heq]
      show d.code ≠ c.code
      intro hcontra
      have hdc : d = c := List.inj_on_of_nodup_map hcodes hdmem hcmem hcontra
      rw [hdc] at hid
      simp at hid

/-- A state for the C5 witness: two unused "500" coupons, a user with
enough points for two redemptions. -/
def dbC5 : DB :=
  { users := [{ tg_id := 1, verified := true, points := 6 }],
    coupons := [{ id := 1, coupon_type := "500", code := "A" },
                { id := 2, coupon_type := "500", code := "B" }],
    rules := fun _ => 3 }

/-- Witness for C5: the first redemption takes the oldest coupon and a
second one cannot repeat its code. -/
theorem redeem_allocates_oldest_and_codes_distinct_witness :
    (∃ c ∈ dbC5.coupons, c.coupon_type = "500" ∧ c.is_used = false ∧
      (App.redeem_coupon dbC5 1 "500" 0).1.2.1 = c.code ∧
      (∀ d ∈ dbC5.coupons, d.coupon_type = "500" → d.is_used = false → c.id ≤ d.id) ∧
      { c with is_used := true, used_by := some 1, used_at := some 0 }
        ∈ (App.redeem_coupon dbC5 1 "500" 0).2.coupons) ∧
    ((App.redeem_coupon (App.redeem_coupon dbC5 1 "500" 0).2 1 "500" 7).1.1 = true →
      (App.redeem_coupon (App.redeem_coupon dbC5 1 "500" 0).2 1 "500" 7).1.2.1
        ≠ (App.redeem_coupon dbC5 1 "500" 0).1.2.1) :=
  redeem_allocates_oldest_and_codes_distinct dbC5 (by decide) 1 1 "500" "500" 0 7 rfl

/-! ## C10: frame of the referral award -/

/-- The user lookup after the two updates the award performs. -/
theorem find?_award_users (users : List User) (uid R k : Int) :
    ((updWhere (fun w => w.tg_id == R)
        (fun w => { w with points := w.points + 1, referrals := w.referrals + 1 })
        (updWhere (fun w => w.tg_id == uid && !w.referral_awarded)
          (fun w => { w with referral_awarded := true }) users)).find?
      (fun w => w.tg_id == k)) =
    ((users.find? (fun w => w.tg_id == k)).map
      (fun a => if a.tg_id == uid && !a.referral_awarded
                then { a with referral_awarded := true } else a)).map
      (fun a => if a.tg_id == R
                then { a with points := a.points + 1, referrals := a.referrals + 1 }
                else a) := by
  have hinner := @find?_updWhere User (fun w => w.tg_id == k)
    (fun w => w.tg_id == uid && !w.referral_awarded)
    (fun w => { w with referral_awarded := true })
    (fun a => rfl) users
  have houter := @find?_updWhere User (fun w => w.tg_id == k)
    (fun w => w.tg_id == R)
    (fun w => { w with points := w.points + 1, referrals := w.referrals + 1 })
    (fun a => rfl)
    (updWhere (fun w => w.tg_id == uid && !w.referral_awarded)
      (fun w => { w with referral_awarded := true }) users)
  rw [houter, hinner]

/-- Either the award leaves the state untouched, or the account is
eligible and the state is exactly the flag-set plus the credit. -/
theorem award_state_cases (db : DB) (uid : Int) :
    (App.award_referral_if_applicable db uid).2 = db ∨
    ∃ u R, get_user db uid = some u ∧ u.referred_by = some R ∧
      u.referral_awarded = false ∧
      (App.award_referral_if_applicable db uid).2 =
        { db with
          users := updWhere (fun w => w.tg_id == R)
            (fun w => { w with points := w.points + 1, referrals := w.referrals + 1 })
            (updWhere (fun w => w.tg_id == uid && !w.referral_awarded)
              (fun w => { w with referral_awarded := true }) db.users) } := by
  unfold App.award_referral_if_applicable
  rcases hgu : get_user db uid with _ | u
  · exact Or.inl rfl
  · simp only [hgu]
    by_cases hcond : (!u.verified || u.referral_awarded || !truthyRef u.referred_by) = true
    · rw [if_pos hcond]
      exact Or.inl rfl
    · rw [if_neg hcond]
      by_cases hcnt : (db.users.countP fun w => w.tg_id == uid && !w.referral_awarded) = 0
      · rw [if_pos hcnt]
        exact Or.inl rfl
      · rw [if_neg hcnt]
        have hcond' : (!u.verified || u.referral_awarded || !truthyRef u.referred_by)
            = false := by
          revert hcond
          cases !u.verified || u.referral_awarded || !truthyRef u.referred_by <;> simp
        have hparts := Bool.or_eq_false_iff.mp hcond'
        have hparts2 := Bool.or_eq_false_iff.mp hparts.1
        rcases hrb : u.referred_by with _ | R
        · exfalso
          have h3 := hparts.2
          rw [hrb] at h3
          simp [truthyRef] at h3
        · exact Or.inr ⟨u, R, rfl, hrb, hparts2.2, rfl⟩

/-- C10: the award never changes the referred account's own points or
referrals (at most its `referral_awarded` flag flips false-to-true), and
every account other than the referred one and its referrer — and every
other table — is left untouched.  The hypothesis is the documented
no-self-referral invariant. -/
theorem award_frame_effect (db : DB) (uid : Int)
    (hself : ∀ v, get_user db uid = some v → v.referred_by ≠ some uid) :
    (get_user (App.award_referral_if_applicable db uid).2 uid).map User.points
      = (get_user db uid).map User.points ∧
    (get_user (App.award_referral_if_applicable db uid).2 uid).map User.referrals
      = (get_user db uid).map User.referrals ∧
    (get_user (App.award_referral_if_applicable db uid).2 uid).map User.verified
      = (get_user db uid).map User.verified ∧
    (get_user (App.award_referral_if_applicable db uid).2 uid).map User.referred_by
      = (get_user db uid).map User.referred_by ∧
    ((get_user (App.award_referral_if_applicable db uid).2 uid).map User.referral_awarded
        = (get_user db uid).map User.referral_awarded ∨
      ((get_user db uid).map User.referral_awarded = some false ∧
       (get_user (App.award_referral_if_applicable db uid).2 uid).map User.referral_awarded
         = some true)) ∧
    (App.award_referral_if_applicable db uid).2.coupons = db.coupons ∧
    (App.award_referral_if_applicable db uid).2.redeems = db.redeems ∧
    (App.award_referral_if_applicable db uid).2.device_verifications
      = db.device_verifications ∧
    (∀ k, k ≠ uid → (∀ v, get_user db uid = some v → v.referred_by ≠ some k) →
      get_user (App.award_referral_if_applicable db uid).2 k = get_user db k) := by
  rcases award_state_cases db uid with hid | ⟨u, R, hgu, hrb, hbf, hdb'⟩
  · rw [hid]
    exact ⟨rfl, rfl, rfl, rfl, Or.inl rfl, rfl, rfl, rfl, fun k _ _ => rfl⟩
  · have hu' : db.users.find? (fun w => w.tg_id == uid) = some u := hgu
    have hput : u.tg_id = uid := by
      have h := List.find?_some hu'
      simpa using h
    have hRuid : R ≠ uid := by
      intro h
      exact hself u hgu (by rw [hrb, h])
    have hstep : ∀ k : Int,
        get_user (App.award_referral_if_applicable db uid).2 k =
          ((db.users.find? (fun w => w.tg_id == k)).map
            (fun a => if a.tg_id == uid && !a.referral_awarded
                      then { a with referral_awarded := true } else a)).map
            (fun a => if a.tg_id == R
                      then { a with points := a.points + 1, referrals := a.referrals + 1 }
                      else a) := by
      intro k
      rw [hdb']
      exact find?_award_users db.users uid R k
    have hgu_upd : get_user (App.award_referral_if_applicable db uid).2 uid
        = some { u with referral_awarded := true } := by
      rw [hstep uid, hu']
      have hg0 : (if u.tg_id == uid && !u.referral_awarded
          then { u with referral_awarded := true } else u)
          = { u with referral_awarded := true } := by
        simp [hput, hbf]
      simp only [Option.map_some', hg0]
      have hg1 : (({ u with referral_awarded := true } : User).tg_id == R) = false := by
        show (u.tg_id == R) = false
        simp [hput, Ne.symm hRuid]
      rw [if_neg (by simp [hg1])]
    refine ⟨?_, ?_, ?_, ?_, ?_, by rw [hdb'], by rw [hdb'], by rw [hdb'], ?_⟩
    · rw [hgu_upd, hgu]
      rfl
    · rw [hgu_upd, hgu]
      rfl
    · rw [hgu_upd, hgu]
      rfl
    · rw [hgu_upd, hgu]
      rfl
    · right
      rw [hgu_upd, hgu]
      exact ⟨by simp [hbf], rfl⟩
    · intro k hkuid hknotref
      rw [hstep k]
      show _ = db.users.find? (fun w => w.tg_id == k)
      rcases hw : db.users.find? (fun w => w.tg_id == k) with _ | w
      · rw [hw]
        rfl
      · rw [hw]
        have hwk : w.tg_id = k := by
          have h := List.find?_some hw
          simpa using h
        have hg0 : (w.tg_id == uid && !w.referral_awarded) = false := by
          rw [hwk]
          simp [hkuid]
        have hRk : R ≠ k := by
          intro h
          exact hknotref u hgu (by rw [hrb, h])
        simp only [Option.map_some']
        rw [if_neg (show ¬ ((w.tg_id == uid && !w.referral_awarded) = true) by
              rw [hg0]
              simp),
            if_neg (show ¬ ((w.tg_id == R) = true) by
              simp only [beq_iff_eq]
              rw [hwk]
              exact Ne.symm hRk)]

/-- A concrete eligible state for the C10 witness: account 9 referred
by account 4. -/
def dbC10 : DB :=
  { users := [{ tg_id := 9, verified := true, referred_by := some 4 },
              { tg_id := 4, points := 1 }] }

/-- Witness for C10 at a concrete eligible state. -/
theorem award_frame_effect_witness :
    (get_user (App.award_referral_if_applicable dbC10 9).2 9).map User.points
      = (get_user dbC10 9).map User.points ∧
    (get_user (App.award_referral_if_applicable dbC10 9).2 9).map User.referrals
      = (get_user dbC10 9).map User.referrals ∧
    (get_user (App.award_referral_if_applicable dbC10 9).2 9).map User.verified
      = (get_user dbC10 9).map User.verified ∧
    (get_user (App.award_referral_if_applicable dbC10 9).2 9).map User.referred_by
      = (get_user dbC10 9).map User.referred_by ∧
    ((get_user (App.award_referral_if_applicable dbC10 9).2 9).map User.referral_awarded
        = (get_user dbC10 9).map User.referral_awarded ∨
      ((get_user dbC10 9).map User.referral_awarded = some false ∧
       (get_user (App.award_referral_if_applicable dbC10 9).2 9).map User.referral_awarded
         = some true)) ∧
    (App.award_referral_if_applicable dbC10 9).2.coupons = dbC10.coupons ∧
    (App.award_referral_if_applicable dbC10 9).2.redeems = dbC10.redeems ∧
    (App.award_referral_if_applicable dbC10 9).2.device_verifications
      = dbC10.device_verifications ∧
    (∀ k, k ≠ 9 → (∀ v, get_user dbC10 9 = some v → v.referred_by ≠ some k) →
      get_user (App.award_referral_if_applicable dbC10 9).2 k = get_user dbC10 k) :=
  award_frame_effect dbC10 9 (by decide)

/-! ## Step-level helper lemmas for the invariants -/

/-- The no-self-referral invariant of the data model: no account's
`referred_by` points at the account itself. -/
def noSelfRef (db : DB) : Bool :=
  db.users.all fun u => !(u.referred_by == some u.tg_id)

/-- The account bound to a device, when any. -/
def bindingAccount (db : DB) (dev : String) : Option Int :=
  (db.device_verifications.find? fun r => r.device_id == dev).map DeviceBinding.tg_id

theorem find?_append_some {α : Type} (p : α → Bool) {l₁ : List α} (l₂ : List α) {a : α}
    (h : l₁.find? p = some a) : (l₁ ++ l₂).find? p = some a := by
  rw [List.find?_append, h]
  rfl

/-- A where-update whose row function preserves `tg_id` and `referred_by`
does not change the `referred_by` observation of any key. -/
theorem find?_ref_updWhere (users : List User) (c : User → Bool) (f : User → User)
    (hkey : ∀ w, (f w).tg_id = w.tg_id) (href : ∀ w, (f w).referred_by = w.referred_by)
    (k : Int) :
    ((updWhere c f users).find? (fun w => w.tg_id == k)).map User.referred_by
      = (users.find? (fun w => w.tg_id == k)).map User.referred_by := by
  rw [@find?_updWhere User (fun w => w.tg_id == k) c f
        (fun a => by
          show ((f a).tg_id == k) = (a.tg_id == k)
          rw [hkey]) users]
  rcases h : users.find? (fun w => w.tg_id == k) with _ | w
  · rw [h]
    rfl
  · rw [h]
    simp only [Option.map_some']
    by_cases hc : c w = true
    · rw [if_pos hc, href]
    · rw [if_neg hc]

/-- A where-update whose row function preserves `tg_id` and `referred_by`
preserves the no-self-referral invariant. -/
theorem noSelf_updWhere (users : List User) (c : User → Bool) (f : User → User)
    (hkey : ∀ w, (f w).tg_id = w.tg_id) (href : ∀ w, (f w).referred_by = w.referred_by)
    (h : users.all (fun u => !(u.referred_by == some u.tg_id)) = true) :
    (updWhere c f users).all (fun u => !(u.referred_by == some u.tg_id)) = true := by
  rw [List.all_eq_true] at h ⊢
  intro x hx
  unfold updWhere at hx
  obtain ⟨w, hw, hfw⟩ := List.mem_map.mp hx
  have hbase := h w hw
  by_cases hc : c w = true
  · rw [← hfw, if_pos hc, href, hkey]
    exact hbase
  · rw [← hfw, if_neg hc]
    exact hbase

/-- Setting `referred_by := some b` on the rows of account `a`, with
`a ≠ b`, preserves the no-self-referral invariant. -/
theorem noSelf_set_referred (users : List User) (a b : Int) (hab : ¬ a = b)
    (h : users.all (fun u => !(u.referred_by == some u.tg_id)) = true) :
    (updWhere (fun w => w.tg_id == a) (fun w => { w with referred_by := some b })
        users).all (fun u => !(u.referred_by == some u.tg_id)) = true := by
  rw [List.all_eq_true] at h ⊢
  intro x hx
  unfold updWhere at hx
  obtain ⟨w, hw, hfw⟩ := List.mem_map.mp hx
  by_cases hc : (w.tg_id == a) = true
  · rw [← hfw, if_pos hc]
    have hwa : w.tg_id = a := by simpa using hc
    simp [hwa, Ne.symm hab]
  · rw [← hfw, if_neg hc]
    exact h w hw

theorem add_coupons_users (db : DB) (t : String) (codes : List String) :
    (App.add_coupons db t codes).2.users = db.users := by
  unfold App.add_coupons
  dsimp only
  split
  · rfl
  · split
    · rfl
    · rfl

theorem remove_coupons_users (db : DB) (t : String) (n : Int) :
    (App.remove_unused_coupons db t n).2.users = db.users := by
  unfold App.remove_unused_coupons
  split
  · rfl
  · rfl

theorem add_coupons_devices (db : DB) (t : String) (codes : List String) :
    (App.add_coupons db t codes).2.device_verifications = db.device_verifications := by
  unfold App.add_coupons
  dsimp only
  split
  · rfl
  · split
    · rfl
    · rfl

theorem remove_coupons_devices (db : DB) (t : String) (n : Int) :
    (App.remove_unused_coupons db t n).2.device_verifications
      = db.device_verifications := by
  unfold App.remove_unused_coupons
  split
  · rfl
  · rfl

theorem award_devices (db : DB) (uid : Int) :
    (App.award_referral_if_applicable db uid).2.device_verifications
      = db.device_verifications := by
  rcases award_state_cases db uid with h | ⟨u, R, _, _, _, h⟩ <;> rw [h]

theorem redeem_devices (db : DB) (uid : Int) (t : String) (now : Nat) :
    (App.redeem_coupon db uid t now).2.device_verifications
      = db.device_verifications := by
  rcases redeem_cases db uid t now with h | h
  · obtain ⟨u, c, _, _, _, _, _, heq⟩ := redeem_success_spec db uid t now h
    rw [heq]
  · rw [h]

theorem set_referred_devices (db : DB) (a b : Int) :
    (App.set_referred_by_if_needed db a b).device_verifications
      = db.device_verifications := by
  unfold App.set_referred_by_if_needed
  split
  · rfl
  · split
    · rfl
    · split
      · rfl
      · rfl

/-- Either `verify_on_web` fails and leaves the state untouched, or the
token resolves, the device check passed (any binding of the device
carries the resolved account), and the state is exactly the verified-set
plus the binding upsert. -/
theorem verify_state_cases (db : DB) (tok dev : String) (now : Nat) :
    (App.verify_on_web db tok dev now).2 = db ∨
    ∃ u, db.users.find? (fun w => w.verify_token == some (pyStrip tok)) = some u ∧
      (∀ r, db.device_verifications.find? (fun x => x.device_id == pyStrip dev) = some r →
        r.tg_id = u.tg_id) ∧
      (App.verify_on_web db tok dev now).2 =
        { db with
          users := updWhere (fun w => w.tg_id == u.tg_id)
            (fun w => { w with verified := true }) db.users,
          device_verifications :=
            if db.device_verifications.any (fun x => x.device_id == pyStrip dev) then
              updWhere (fun x => x.device_id == pyStrip dev)
                (fun x => { x with tg_id := u.tg_id, verified_at := now })
                db.device_verifications
            else db.device_verifications ++ [⟨pyStrip dev, u.tg_id, now⟩] } := by
  unfold App.verify_on_web
  by_cases hmiss : (pyStrip tok == "" || pyStrip dev == "") = true
  · rw [if_pos hmiss]
    exact Or.inl rfl
  · rw [if_neg hmiss]
    rcases hfu : db.users.find? (fun w => w.verify_token == some (pyStrip tok)) with _ | u
    · simp [hfu]
    · simp only [hfu]
      by_cases hc1 : (match db.device_verifications.find?
            (fun r => r.device_id == pyStrip dev) with
          | some r => !(r.tg_id == u.tg_id)
          | none => false) = true
      · rw [if_pos hc1]
        exact Or.inl rfl
      · rw [if_neg hc1]
        by_cases hc2 : (match db.device_verifications.find?
              (fun r => r.tg_id == u.tg_id) with
            | some r => !(r.device_id == pyStrip dev)
            | none => false) = true
        · rw [if_pos hc2]
          exact Or.inl rfl
        · rw [if_neg hc2]
          refine Or.inr ⟨u, rfl, ?_, rfl⟩
          intro r hr
          rw [hr] at hc1
          simp at hc1
          exact hc1

theorem get_user_users (db : DB) (k : Int) :
    get_user db k = db.users.find? (fun w => w.tg_id == k) := rfl

/-- Once `referred_by` holds a value, no operation of the service ever
changes it. -/
theorem referred_by_persistent_step (db : DB) (s : App.Step) (k r : Int)
    (h : (get_user db k).map User.referred_by = some (some r)) :
    (get_user (App.applyStep s db) k).map User.referred_by = some (some r) := by
  cases s with
  | upsertUser uid un fn now =>
    simp only [App.applyStep]
    unfold App.upsert_user
    by_cases hany : (db.users.any fun w => w.tg_id == uid) = true
    · rw [if_pos hany]
      simp only [get_user_users]
      rw [find?_ref_updWhere db.users (fun w => w.tg_id == uid)
            (fun w => { w with username := un, first_name := fn, last_seen := now })
            (fun w => rfl) (fun w => rfl) k]
      exact h
    · rw [if_neg hany]
      simp only [get_user_users]
      rcases hf : db.users.find? (fun w => w.tg_id == k) with _ | w
      · rw [get_user_users, hf] at h
        simp at h
      · rw [find?_append_some _ _ hf]
        rw [get_user_users, hf] at h
        exact h
  | setReferred x y =>
    simp only [App.applyStep]
    unfold App.set_referred_by_if_needed
    by_cases hxy : (x == y) = true
    · rw [if_pos hxy]
      exact h
    · rw [if_neg hxy]
      rcases hfx : db.users.find? (fun u => u.tg_id == x) with _ | row
      · simp only [hfx]
        exact h
      · simp only [hfx]
        by_cases hret : (!(row.referred_by == none)) = true
        · rw [if_pos hret]
          exact h
        · rw [if_neg hret]
          have hrow : row.referred_by = none := by
            have hb : (row.referred_by == none) = true := by
              revert hret
              cases row.referred_by == none <;> simp
            simpa using hb
          simp only [get_user_users]
          rw [@find?_updWhere User (fun w => w.tg_id == k) (fun w => w.tg_id == x)
                (fun w => { w with referred_by := some y }) (fun v => rfl) db.users]
          rcases hfk : db.users.find? (fun w => w.tg_id == k) with _ | w
          · rw [get_user_users, hfk] at h
            simp at h
          · have hwref : w.referred_by = some r := by
              rw [get_user_users, hfk] at h
              simpa using h
            rw [hfk]
            simp only [Option.map_some']
            by_cases hcx : (w.tg_id == x) = true
            · exfalso
              have hwk : w.tg_id = k := by simpa using List.find?_some hfk
              have hkx : k = x := by
                rw [← hwk]
                simpa using hcx
              subst hkx
              rw [hfx] at hfk
              have hrw : row = w := Option.some.inj hfk
              rw [← hrw, hrow] at hwref
              cases hwref
            · rw [if_neg hcx]
              simp [hwref]
  | award uid =>
    simp only [App.applyStep]
    rcases award_state_cases db uid with hs | ⟨u, R, _, _, _, hs⟩
    · rw [hs]
      exact h
    · rw [hs]
      simp only [get_user_users]
      rw [find?_ref_updWhere
            (updWhere (fun w => w.tg_id == uid && !w.referral_awarded)
              (fun w => { w with referral_awarded := true }) db.users)
            (fun w => w.tg_id == R)
            (fun w => { w with points := w.points + 1, referrals := w.referrals + 1 })
            (fun w => rfl) (fun w => rfl) k,
          find?_ref_updWhere db.users
            (fun w => w.tg_id == uid && !w.referral_awarded)
            (fun w => { w with referral_awarded := true })
            (fun w => rfl) (fun w => rfl) k]
      exact h
  | addCoupons t codes =>
    simp only [App.applyStep, get_user_users]
    rw [add_coupons_users]
    exact h
  | removeCoupons t n =>
    simp only [App.applyStep, get_user_users]
    rw [remove_coupons_users]
    exact h
  | redeem uid t now =>
    simp only [App.applyStep]
    rcases redeem_cases db uid t now with hok | hs
    · obtain ⟨u, c, _, _, _, _, _, heq⟩ := redeem_success_spec db uid t now hok
      rw [heq]
      simp only [get_user_users]
      rw [find?_ref_updWhere db.users (fun w => w.tg_id == uid)
            (fun w => { w with points := w.points - db.rules t })
            (fun w => rfl) (fun w => rfl) k]
      exact h
    · rw [hs]
      exact h
  | createToken uid token =>
    simp only [App.applyStep]
    unfold App.create_verify_token
    simp only [get_user_users]
    rw [find?_ref_updWhere db.users (fun w => w.tg_id == uid)
          (fun w => { w with verify_token := some token })
          (fun w => rfl) (fun w => rfl) k]
    exact h
  | verifyWeb tok dev now =>
    simp only [App.applyStep]
    rcases verify_state_cases db tok dev now with hs | ⟨u, -, -, hs⟩
    · rw [hs]
      exact h
    · rw [hs]
      simp only [get_user_users]
      rw [find?_ref_updWhere db.users (fun w => w.tg_id == u.tg_id)
            (fun w => { w with verified := true })
            (fun w => rfl) (fun w => rfl) k]
      exact h
  | setRulePoints t v =>
    exact h
  | setState uid st sd =>
    simp only [App.applyStep]
    unfold App.set_state
    simp only [get_user_users]
    rw [find?_ref_updWhere db.users (fun w => w.tg_id == uid)
          (fun w => { w with state := st, state_data := sd })
          (fun w => rfl) (fun w => rfl) k]
    exact h

/-- No operation of the service introduces a self-referral. -/
theorem noSelfRef_step (db : DB) (hns : noSelfRef db = true) (s : App.Step) :
    noSelfRef (App.applyStep s db) = true := by
  cases s with
  | upsertUser uid un fn now =>
    simp only [App.applyStep]
    unfold App.upsert_user
    by_cases hany : (db.users.any fun w => w.tg_id == uid) = true
    · rw [if_pos hany]
      exact noSelf_updWhere db.users (fun w => w.tg_id == uid)
        (fun w => { w with username := un, first_name := fn, last_seen := now })
        (fun w => rfl) (fun w => rfl) hns
    · rw [if_neg hany]
      unfold noSelfRef at hns ⊢
      rw [List.all_append, hns]
      rfl
  | setReferred x y =>
    simp only [App.applyStep]
    unfold App.set_referred_by_if_needed
    by_cases hxy : (x == y) = true
    · rw [if_pos hxy]
      exact hns
    · rw [if_neg hxy]
      rcases hfx : db.users.find? (fun u => u.tg_id == x) with _ | row
      · simp only [hfx]
        exact hns
      · simp only [hfx]
        by_cases hret : (!(row.referred_by == none)) = true
        · rw [if_pos hret]
          exact hns
        · rw [if_neg hret]
          have hxyne : ¬ x = y := by
            intro hcontra
            exact hxy (by simp [hcontra])
          exact noSelf_set_referred db.users x y hxyne hns
  | award uid =>
    simp only [App.applyStep]
    rcases award_state_cases db uid with hs | ⟨u, R, _, _, _, hs⟩
    · rw [hs]
      exact hns
    · rw [hs]
      exact noSelf_updWhere
        (updWhere (fun w => w.tg_id == uid && !w.referral_awarded)
          (fun w => { w with referral_awarded := true }) db.users)
        (fun w => w.tg_id == R)
        (fun w => { w with points := w.points + 1, referrals := w.referrals + 1 })
        (fun w => rfl) (fun w => rfl)
        (noSelf_updWhere db.users
          (fun w => w.tg_id == uid && !w.referral_awarded)
          (fun w => { w with referral_awarded := true })
          (fun w => rfl) (fun w => rfl) hns)
  | addCoupons t codes =>
    simp only [App.applyStep]
    unfold noSelfRef
    rw [add_coupons_users]
    exact hns
  | removeCoupons t n =>
    simp only [App.applyStep]
    unfold noSelfRef
    rw [remove_coupons_users]
    exact hns
  | redeem uid t now =>
    simp only [App.applyStep]
    rcases redeem_cases db uid t now with hok | hs
    · obtain ⟨u, c, _, _, _, _, _, heq⟩ := redeem_success_spec db uid t now hok
      rw [heq]
      exact noSelf_updWhere db.users (fun w => w.tg_id == uid)
        (fun w => { w with points := w.points - db.rules t })
        (fun w => rfl) (fun w => rfl) hns
    · rw [hs]
      exact hns
  | createToken uid token =>
    simp only [App.applyStep]
    unfold App.create_verify_token
    exact noSelf_updWhere db.users (fun w => w.tg_id == uid)
      (fun w => { w with verify_token := some token })
      (fun w => rfl) (fun w => rfl) hns
  | verifyWeb tok dev now =>
    simp only [App.applyStep]
    rcases verify_state_cases db tok dev now with hs | ⟨u, -, -, hs⟩
    · rw [hs]
      exact hns
    · rw [hs]
      exact noSelf_updWhere db.users (fun w => w.tg_id == u.tg_id)
        (fun w => { w with verified := true })
        (fun w => rfl) (fun w => rfl) hns
  | setRulePoints t v =>
    exact hns
  | setState uid st sd =>
    simp only [App.applyStep]
    unfold App.set_state
    exact noSelf_updWhere db.users (fun w => w.tg_id == uid)
      (fun w => { w with state := st, state_data := sd })
      (fun w => rfl) (fun w => rfl) hns

/-- C8: `referred_by` is set at most once and never to the account
itself: `set_referred_by_if_needed` is a no-op on self-referral, on an
unknown account and when a referrer is already recorded, and otherwise
records the referrer; moreover every operation of the service preserves
an already-set referrer, and none introduces a self-referral. -/
theorem referred_by_set_once_never_self (db : DB) (a b : Int) :
    App.set_referred_by_if_needed db a a = db ∧
    (get_user db a = none → App.set_referred_by_if_needed db a b = db) ∧
    (∀ u r, get_user db a = some u → u.referred_by = some r →
      App.set_referred_by_if_needed db a b = db) ∧
    (∀ u, get_user db a = some u → u.referred_by = none → ¬ a = b →
      get_user (App.set_referred_by_if_needed db a b) a
        = some { u with referred_by := some b }) ∧
    (∀ (s : App.Step) (k r : Int),
      (get_user db k).map User.referred_by = some (some r) →
      (get_user (App.applyStep s db) k).map User.referred_by = some (some r)) ∧
    (noSelfRef db = true → ∀ s : App.Step, noSelfRef (App.applyStep s db) = true) := by
  refine ⟨?_, ?_, ?_, ?_,
    fun s k r h => referred_by_persistent_step db s k r h,
    fun hns s => noSelfRef_step db hns s⟩
  · unfold App.set_referred_by_if_needed
    rw [if_pos (by simp : (a == a) = true)]
  · intro h
    unfold App.set_referred_by_if_needed
    by_cases hab : (a == b) = true
    · rw [if_pos hab]
    · rw [if_neg hab]
      have h' : db.users.find? (fun u => u.tg_id == a) = none := h
      simp only [h']
  · intro u r hu hr
    unfold App.set_referred_by_if_needed
    by_cases hab : (a == b) = true
    · rw [if_pos hab]
    · rw [if_neg hab]
      have hu' : db.users.find? (fun v => v.tg_id == a) = some u := hu
      simp only [hu']
      rw [if_pos (show (!(u.referred_by == none)) = true by rw [hr]; rfl)]
  · intro u hu hr hab
    unfold App.set_referred_by_if_needed
    rw [if_neg (show ¬ (a == b) = true by simp [hab])]
    have hu' : db.users.find? (fun v => v.tg_id == a) = some u := hu
    simp only [hu']
    rw [if_neg (show ¬ (!(u.referred_by == none)) = true by rw [hr]; simp)]
    simp only [get_user_users]
    rw [@find?_updWhere User (fun w => w.tg_id == a) (fun w => w.tg_id == a)
          (fun w => { w with referred_by := some b }) (fun v => rfl) db.users, hu']
    have hpu : (u.tg_id == a) = true := by
      simpa using List.find?_some hu'
    simp only [Option.map_some']
    rw [if_pos hpu]

/-- Witness for C8: a fresh referral is recorded on a concrete state. -/
theorem referred_by_set_once_never_self_witness :
    get_user (App.set_referred_by_if_needed dbC4 2 8) 2
      = some { tg_id := 2, verified := true, points := 10, referred_by := some 8 } :=
  (referred_by_set_once_never_self dbC4 2 8).2.2.2.1
    { tg_id := 2, verified := true, points := 10 } rfl rfl (by decide)

theorem bindingAccount_devs (db : DB) (dev : String) :
    bindingAccount db dev
      = (db.device_verifications.find? fun r => r.device_id == dev).map
          DeviceBinding.tg_id := rfl

/-- C6: a device bound to account A makes any later bind attempt by a
different account B with the same device fail with DeviceAlreadyBound and
leave the state untouched; and no operation of the service ever removes
the binding or re-binds the device to another account. -/
theorem device_binding_permanent (db : DB) (tok dev : String) (now : Nat) (A B : Int) :
    (∀ u rb, db.device_verifications.find? (fun x => x.device_id == dev) = some rb →
      rb.tg_id = A →
      pyStrip tok = tok → pyStrip dev = dev → ¬ tok = "" → ¬ dev = "" →
      db.users.find? (fun w => w.verify_token == some tok) = some u →
      u.tg_id = B → ¬ B = A →
      App.verify_on_web db tok dev now
        = ((false, "This device is already verified with another account.", some B), db)) ∧
    (∀ s : App.Step, bindingAccount db dev = some A →
      bindingAccount (App.applyStep s db) dev = some A) := by
  constructor
  · intro u rb hrb hrbA htok hdev htne hdne hu huB hBA
    unfold App.verify_on_web
    rw [htok, hdev]
    rw [if_neg (show ¬ ((tok == "" || dev == "") = true) by simp [htne, hdne])]
    simp only [hu, hrb]
    rw [if_pos (show (!(rb.tg_id == u.tg_id)) = true by
          rw [hrbA, huB]
          simp [Ne.symm hBA])]
    rw [huB]
  · intro s hA
    cases s with
    | upsertUser uid un fn now' =>
      simp only [App.applyStep]
      unfold App.upsert_user
      by_cases hany : (db.users.any fun w => w.tg_id == uid) = true
      · rw [if_pos hany]
        exact hA
      · rw [if_neg hany]
        exact hA
    | setReferred x y =>
      simp only [App.applyStep, bindingAccount_devs]
      rw [set_referred_devices]
      exact hA
    | award uid =>
      simp only [App.applyStep, bindingAccount_devs]
      rw [award_devices]
      exact hA
    | addCoupons t codes =>
      simp only [App.applyStep, bindingAccount_devs]
      rw [add_coupons_devices]
      exact hA
    | removeCoupons t n =>
      simp only [App.applyStep, bindingAccount_devs]
      rw [remove_coupons_devices]
      exact hA
    | redeem uid t now' =>
      simp only [App.applyStep, bindingAccount_devs]
      rw [redeem_devices]
      exact hA
    | createToken uid token =>
      simp only [App.applyStep]
      unfold App.create_verify_token
      exact hA
    | setRulePoints t v =>
      exact hA
    | setState uid st sd =>
      simp only [App.applyStep]
      unfold App.set_state
      exact hA
    | verifyWeb tok' dev' now' =>
      simp only [App.applyStep]
      rcases verify_state_cases db tok' dev' now' with hs | ⟨u, -, hcheck, hs⟩
      · simp only [bindingAccount_devs] at hA ⊢
        rw [hs]
        exact hA
      · simp only [bindingAccount_devs] at hA ⊢
        rw [hs]
        by_cases hany : (db.device_verifications.any fun x => x.device_id == pyStrip dev') = true
        · rw [if_pos hany]
          rw [@find?_updWhere DeviceBinding (fun r => r.device_id == dev)
                (fun x => x.device_id == pyStrip dev')
                (fun x => { x with tg_id := u.tg_id, verified_at := now' })
                (fun a => rfl) db.device_verifications]
          rcases hfd : db.device_verifications.find? (fun r => r.device_id == dev)
            with _ | rb
          · rw [hfd] at hA
            simp at hA
          · rw [hfd] at hA
            have hrbA : rb.tg_id = A := by simpa using hA
            rw [hfd]
            simp only [Option.map_some']
            by_cases hcd : (rb.device_id == pyStrip dev') = true
            · have hrbdev : rb.device_id = dev := by
                simpa using List.find?_some hfd
              have hdd : dev = pyStrip dev' := by
                rw [← hrbdev]
                simpa using hcd
              have hfd' : db.device_verifications.find?
                  (fun x => x.device_id == pyStrip dev') = some rb := by
                rw [← hdd]
                exact hfd
              have hrbu : rb.tg_id = u.tg_id := hcheck rb hfd'
              rw [if_pos hcd]
              show some u.tg_id = some A
              rw [← hrbu, hrbA]
            · rw [if_neg hcd]
              simp [hrbA]
        · rw [if_neg hany]
          rcases hfd : db.device_verifications.find? (fun r => r.device_id == dev)
            with _ | rb
          · rw [hfd] at hA
            simp at hA
          · rw [find?_append_some _ _ hfd]
            rw [hfd] at hA
            exact hA

/-- The concrete state of the C6 witness: device "dev" bound to account
5, account 6 holding token "tok". -/
def dbC6 : DB :=
  { users := [{ tg_id := 6, verify_token := some "tok" }],
    device_verifications := [{ device_id := "dev", tg_id := 5 }] }

/-- Witness for C6: account 6's bind attempt on the device bound to 5
fails and the binding survives another operation. -/
theorem device_binding_permanent_witness :
    App.verify_on_web dbC6 "tok" "dev" 3
      = ((false, "This device is already verified with another account.", some 6), dbC6) ∧
    bindingAccount (App.applyStep (App.Step.createToken 6 "t2") dbC6) "dev" = some 5 :=
  ⟨(device_binding_permanent dbC6 "tok" "dev" 3 5 6).1
      { tg_id := 6, verify_token := some "tok" } { device_id := "dev", tg_id := 5 }
      rfl rfl (by decide) (by decide) (by decide) (by decide) rfl rfl (by decide),
   (device_binding_permanent dbC6 "tok" "dev" 3 5 6).2 (App.Step.createToken 6 "t2") rfl⟩

/-! ## C7: verification of an already-verified account -/

/-- A state exercising C7: account 9 is already verified and already
bound to device "d7"; its token "t7" is valid. -/
def dbC7 : DB :=
  { users := [{ tg_id := 9, verified := true, verify_token := some "t7" }],
    device_verifications := [{ device_id := "d7", tg_id := 9 }] }

/-- C7 counterexample: the account is already verified and the call
passes both binding checks, yet the DeviceBinding row is NOT left as it
was — the upsert re-runs and refreshes `verified_at`. -/
theorem verify_already_verified_rebinds_counterexample :
    (get_user dbC7 9).map User.verified = some true ∧
    (App.verify_on_web dbC7 "t7" "d7" 5).1.1 = true ∧
    (App.verify_on_web dbC7 "t7" "d7" 5).2.device_verifications
      ≠ dbC7.device_verifications := by
  refine ⟨rfl, by decide, by decide⟩

/-- C7 (amended): for an already-verified account with a valid token and
a device passing both checks, the call succeeds and the account rows are
observably unchanged, but the binding is re-upserted: the row for the
device is rewritten with the account and the fresh timestamp (or
inserted when absent); the device-to-account mapping of every other
device is untouched, as are coupons and the redemption log. -/
theorem verify_already_verified_succeeds_rebinding
    (db : DB) (tok dev : String) (now : Nat) (u : User)
    (hWF : (db.users.map User.tg_id).Nodup)
    (htok : pyStrip tok = tok) (hdev : pyStrip dev = dev)
    (htne : ¬ tok = "") (hdne : ¬ dev = "")
    (hu : db.users.find? (fun w => w.verify_token == some tok) = some u)
    (hv : u.verified = true)
    (hc1 : ∀ r, db.device_verifications.find? (fun x => x.device_id == dev) = some r →
      r.tg_id = u.tg_id)
    (hc2 : ∀ r, db.device_verifications.find? (fun x => x.tg_id == u.tg_id) = some r →
      r.device_id = dev) :
    (App.verify_on_web db tok dev now).1
      = (true, "Verified successfully. Now go back and click Check Verification.",
         some u.tg_id) ∧
    (∀ k, get_user (App.verify_on_web db tok dev now).2 k = get_user db k) ∧
    bindingAccount (App.verify_on_web db tok dev now).2 dev = some u.tg_id ∧
    (∀ d, ¬ d = dev →
      (App.verify_on_web db tok dev now).2.device_verifications.find?
          (fun x => x.device_id == d)
        = db.device_verifications.find? (fun x => x.device_id == d)) ∧
    (App.verify_on_web db tok dev now).2.device_verifications =
      (if db.device_verifications.any (fun r => r.device_id == dev) then
        updWhere (fun r => r.device_id == dev)
          (fun r => { r with tg_id := u.tg_id, verified_at := now })
          db.device_verifications
      else db.device_verifications ++ [⟨dev, u.tg_id, now⟩]) ∧
    (App.verify_on_web db tok dev now).2.coupons = db.coupons ∧
    (App.verify_on_web db tok dev now).2.redeems = db.redeems := by
  have hcond1 : (match db.device_verifications.find? (fun r => r.device_id == dev) with
      | some r => !(r.tg_id == u.tg_id)
      | none => false) = false := by
    rcases hf : db.device_verifications.find? (fun r => r.device_id == dev) with _ | r
    · rw [hf]
    · rw [hf]
      have := hc1 r hf
      simp [this]
  have hcond2 : (match db.device_verifications.find? (fun r => r.tg_id == u.tg_id) with
      | some r => !(r.device_id == dev)
      | none => false) = false := by
    rcases hf : db.device_verifications.find? (fun r => r.tg_id == u.tg_id) with _ | r
    · rw [hf]
    · rw [hf]
      have := hc2 r hf
      simp [this]
  have heq : App.verify_on_web db tok dev now =
      ((true, "Verified successfully. Now go back and click Check Verification.",
        some u.tg_id),
       { db with
         users := updWhere (fun w => w.tg_id == u.tg_id)
           (fun w => { w with verified := true }) db.users,
         device_verifications :=
           if db.device_verifications.any (fun r => r.device_id == dev) then
             updWhere (fun r => r.device_id == dev)
               (fun r => { r with tg_id := u.tg_id, verified_at := now })
               db.device_verifications
           else db.device_verifications ++ [⟨dev, u.tg_id, now⟩] }) := by
    unfold App.verify_on_web
    rw [htok, hdev]
    rw [if_neg (show ¬ ((tok == "" || dev == "") = true) by simp [htne, hdne])]
    simp only [hu]
    rw [if_neg (show ¬ _ = true by rw [hcond1]; simp),
        if_neg (show ¬ _ = true by rw [hcond2]; simp)]
  refine ⟨by rw [heq], ?_, ?_, ?_, by rw [heq], by rw [heq], by rw [heq]⟩
  · intro k
    rw [heq]
    simp only [get_user_users]
    rw [@find?_updWhere User (fun w => w.tg_id == k) (fun w => w.tg_id == u.tg_id)
          (fun w => { w with verified := true }) (fun a => rfl) db.users]
    rcases hf : db.users.find? (fun w => w.tg_id == k) with _ | w
    · rw [hf]
      rfl
    · rw [hf]
      simp only [Option.map_some']
      by_cases hcu : (w.tg_id == u.tg_id) = true
      · have hwmem : w ∈ db.users := List.mem_of_find?_eq_some hf
        have humem : u ∈ db.users := List.mem_of_find?_eq_some hu
        have hwtu : w.tg_id = u.tg_id := by simpa using hcu
        have hwu : w = u := List.inj_on_of_nodup_map hWF hwmem humem hwtu
        subst hwu
        rw [if_pos hcu]
        have hvv : ({ w with verified := true } : User) = w := by
          obtain ⟨f1, f2, f3, f4, f5, f6, f7, f8, f9, f10, f11, f12⟩ := w
          simp_all
        rw [hvv]
      · rw [if_neg hcu]
  · rw [heq]
    simp only [bindingAccount_devs]
    by_cases hany : (db.device_verifications.any fun r => r.device_id == dev) = true
    · rw [if_pos hany]
      rw [@find?_updWhere DeviceBinding (fun x => x.device_id == dev)
            (fun r => r.device_id == dev)
            (fun r => { r with tg_id := u.tg_id, verified_at := now })
            (fun a => rfl) db.device_verifications]
      have hsome : (db.device_verifications.find?
          (fun x => x.device_id == dev)).isSome := by
        rw [List.find?_isSome]
        exact List.any_eq_true.mp hany
      obtain ⟨rb, hrb⟩ := Option.isSome_iff_exists.mp hsome
      rw [hrb]
      simp only [Option.map_some']
      rw [if_pos (List.find?_some hrb)]
    · rw [if_neg hany, List.find?_append]
      have hnone : db.device_verifications.find? (fun x => x.device_id == dev)
          = none := by
        rcases hf : db.device_verifications.find? (fun x => x.device_id == dev)
          with _ | r
        · exact hf
        · exfalso
          exact hany (List.any_eq_true.mpr
            ⟨r, List.mem_of_find?_eq_some hf, by simpa using List.find?_some hf⟩)
      rw [hnone]
      have hone : ([(⟨dev, u.tg_id, now⟩ : DeviceBinding)]).find?
          (fun x => x.device_id == dev) = some ⟨dev, u.tg_id, now⟩ :=
        @List.find?_cons_of_pos DeviceBinding (fun x => x.device_id == dev)
          ⟨dev, u.tg_id, now⟩ [] (by simp)
      rw [hone]
      rfl
  · intro d hd
    rw [heq]
    by_cases hany : (db.device_verifications.any fun r => r.device_id == dev) = true
    · rw [if_pos hany]
      rw [@find?_updWhere DeviceBinding (fun x => x.device_id == d)
            (fun r => r.device_id == dev)
            (fun r => { r with tg_id := u.tg_id, verified_at := now })
            (fun a => rfl) db.device_verifications]
      rcases hf : db.device_verifications.find? (fun x => x.device_id == d) with _ | r
      · rw [hf]
        rfl
      · rw [hf]
        simp only [Option.map_some']
        have hrd : r.device_id = d := by simpa using List.find?_some hf
        rw [if_neg (show ¬ ((r.device_id == dev) = true) by
              simp only [beq_iff_eq, hrd]
              exact hd)]
    · rw [if_neg hany, List.find?_append]
      have hpd : ¬ (((⟨dev, u.tg_id, now⟩ : DeviceBinding).device_id == d) = true) := by
        simp only [beq_iff_eq]
        intro hcontra
        exact hd hcontra.symm
      have hone : ([(⟨dev, u.tg_id, now⟩ : DeviceBinding)]).find?
          (fun x => x.device_id == d) = none := by
        have hstep := @List.find?_cons_of_neg DeviceBinding (fun x => x.device_id == d)
          ⟨dev, u.tg_id, now⟩ [] hpd
        rw [hstep]
        rfl
      rw [hone, Option.or_none]

/-- Witness for the amended C7 on the concrete already-verified state. -/
theorem verify_already_verified_succeeds_rebinding_witness :
    (App.verify_on_web dbC7 "t7" "d7" 5).1
      = (true, "Verified successfully. Now go back and click Check Verification.",
         some 9) ∧
    (∀ k, get_user (App.verify_on_web dbC7 "t7" "d7" 5).2 k = get_user dbC7 k) ∧
    bindingAccount (App.verify_on_web dbC7 "t7" "d7" 5).2 "d7" = some 9 ∧
    (∀ d, ¬ d = "d7" →
      (App.verify_on_web dbC7 "t7" "d7" 5).2.device_verifications.find?
          (fun x => x.device_id == d)
        = dbC7.device_verifications.find? (fun x => x.device_id == d)) ∧
    (App.verify_on_web dbC7 "t7" "d7" 5).2.device_verifications =
      (if dbC7.device_verifications.any (fun r => r.device_id == "d7") then
        updWhere (fun r => r.device_id == "d7")
          (fun r => { r with tg_id := 9, verified_at := 5 })
          dbC7.device_verifications
      else dbC7.device_verifications ++ [⟨"d7", 9, 5⟩]) ∧
    (App.verify_on_web dbC7 "t7" "d7" 5).2.coupons = dbC7.coupons ∧
    (App.verify_on_web dbC7 "t7" "d7" 5).2.redeems = dbC7.redeems :=
  verify_already_verified_succeeds_rebinding dbC7 "t7" "d7" 5
    { tg_id := 9, verified := true, verify_token := some "t7" }
    (by decide) (by decide) (by decide) (by decide) (by decide) rfl rfl
    (by
      intro r hr
      have h2 : some ({ device_id := "d7", tg_id := 9 } : DeviceBinding) = some r := hr
      rw [← Option.some.inj h2])
    (by
      intro r hr
      have h2 : some ({ device_id := "d7", tg_id := 9 } : DeviceBinding) = some r := hr
      rw [← Option.some.inj h2])
